import Mathlib

/-!
Shallow embedding of the Modbus_loggers repository (Python) in Lean 4.

The repository polls Modbus devices, decodes register blocks into
engineering units and appends one CSV row per device per cycle.  The
embedding below models, from the source:
  * the per-driver decode/row construction and error paths of
    `utils/device_specific_func.py` (`dcm_3366`, `tp_700`,
    `custom_weather`, `hoymiles_dtu_p`, `list_regis`);
  * the retry loop of `hoymiles_dtu_p`;
  * the standalone `Temp_logger/temp_logger.py` per-cycle device loop;
  * the driver name dispatch of `modbus_logger.py`.

Register values are natural numbers (the transport hands back unsigned
16-bit values), register blocks are lists, CSV cells are a small sum type
(timestamps are abstracted to a single constructor; the `round(x, n)`
display rounding applied by some CSV writes is not modelled — cells carry
the exact rational).  A driver invocation is modelled as a function of
the per-unit transport outcome; `sys.exit(k)` becomes `Term.exited k`,
an uncaught Python exception becomes `Term.raised`.
-/

namespace ModbusLoggers

/-- Outcome of one `client.read_*_registers` call as seen by a driver:
a response with a register list, an error-flagged response
(`response.isError()` true, in which case `response.registers` is empty),
or a raised exception. -/
inductive ReadResult where
  | ok (regs : List Nat)
  | errFlag
  | exc
  deriving DecidableEq, Repr

/-- `true` when the driver's validity check `not response or response.isError()`
rejects the outcome (an exception also counts as a failed attempt). -/
def ReadResult.isFailure : ReadResult → Bool
  | .ok _ => false
  | .errFlag => true
  | .exc => true

/-- One CSV cell.  `time` abstracts the wall-clock timestamp string,
`word` carries a decoded 32-bit pattern (used where the source stores a
float/hex rendering of packed registers), `null` is Python `None`. -/
inductive Cell where
  | time
  | nat (n : Nat)
  | rat (q : ℚ)
  | word (w : Nat)
  | null
  | str (s : String)
  deriving DecidableEq, Repr

/-- How a driver invocation ended: normal return, `sys.exit code`, or an
uncaught exception propagating out of the driver. -/
inductive Term where
  | normal
  | exited (code : Nat)
  | raised
  deriving DecidableEq, Repr

/-- Result of running one driver over its unit-id range: the CSV rows it
appended, how many times it called `client.close()`, how it terminated,
and the unit ids whose read it attempted (in order). -/
structure RunOut where
  rows : List (List Cell)
  closes : Nat
  term : Term
  tried : List Nat
  deriving DecidableEq, Repr

/-! ## dcm_3366 (DC energy meter driver, device_specific_func.py 233-302) -/

/-- The four scaled quantities of `dcm_3366`:
`(regs[0] << 16) + regs[1]` ÷ 100 (forward energy, kWh),
`(regs[20] << 16) + regs[21]` ÷ 1000 (active power, kW),
`(regs[22] << 16) + regs[23]` ÷ 10000 (current, A),
`(regs[24] << 16) + regs[25]` ÷ 10000 (voltage, V). -/
def dcm3366Decode (regs : List Nat) : ℚ × ℚ × ℚ × ℚ :=
  (((regs.getD 0 0) * 65536 + regs.getD 1 0 : ℚ) / 100,
   ((regs.getD 20 0) * 65536 + regs.getD 21 0 : ℚ) / 1000,
   ((regs.getD 22 0) * 65536 + regs.getD 23 0 : ℚ) / 10000,
   ((regs.getD 24 0) * 65536 + regs.getD 25 0 : ℚ) / 10000)

/-- Error row of `dcm_3366`: `[now, device_id, None, None, None, None, "Error"]`. -/
def dcm3366ErrRow (u : Nat) : List Cell :=
  [.time, .nat u, .null, .null, .null, .null, .str "Error"]

/-- Success row of `dcm_3366`:
`[now, device_id, fwd/100, pwr/1000, cur/10000, volt/10000, "No error"]`. -/
def dcm3366DataRow (u : Nat) (regs : List Nat) : List Cell :=
  [.time, .nat u,
   .rat (dcm3366Decode regs).1,
   .rat (dcm3366Decode regs).2.1,
   .rat (dcm3366Decode regs).2.2.1,
   .rat (dcm3366Decode regs).2.2.2,
   .str "No error"]

/-- `dcm_3366` over its device range.  A raised read exception writes one
error row, closes the client and calls `sys.exit(1)`.  The decode path
indexes `regs[0..25]` without a length check, so a block shorter than 26
registers (including the empty register list of an error-flagged
response) raises an uncaught `IndexError`. -/
def dcm3366Run (reads : Nat → ReadResult) : List Nat → RunOut
  | [] => ⟨[], 0, .normal, []⟩
  | u :: rest =>
    match reads u with
    | .exc => ⟨[dcm3366ErrRow u], 1, .exited 1, [u]⟩
    | .errFlag => ⟨[], 0, .raised, [u]⟩
    | .ok regs =>
      if 26 ≤ regs.length then
        let o := dcm3366Run reads rest
        ⟨dcm3366DataRow u regs :: o.rows, o.closes, o.term, u :: o.tried⟩
      else ⟨[], 0, .raised, [u]⟩

/-- `dcm_3366`'s decode as the spec's decoder boundary sees it: a block
shorter than the 26 registers the indices require escapes as an
`IndexError` rather than a tagged decode failure. -/
def dcm3366DecodeE (regs : List Nat) : Except String (ℚ × ℚ × ℚ × ℚ) :=
  if 26 ≤ regs.length then .ok (dcm3366Decode regs) else .error "IndexError"

example : dcm3366Run (fun _ => .exc) [1, 2] =
    ⟨[dcm3366ErrRow 1], 1, .exited 1, [1]⟩ := by decide

/-! ## tp_700 (24-channel temperature logger driver, device_specific_func.py 147-229) -/

/-- One decoded channel of `tp_700` / `temp_logger.py`:
`struct.pack('>HH', high, low)` followed by `struct.unpack('>f', ...)`
interprets the 32-bit pattern `(high << 16) | low` as an IEEE-754
binary32; the cell carries that pattern. -/
def tpChanWord (hi lo : Nat) : Nat := hi * 65536 + lo

/-- Error row of `tp_700`: `[now, unit_id] + [None]*24 + ["Error"]`. -/
def tp700ErrRow (u : Nat) : List Cell :=
  [.time, .nat u] ++ List.replicate 24 Cell.null ++ [.str "Error"]

/-- Decode-error row of `tp_700`: `[now, unit_id] + [None]*24 + ["Decode error"]`. -/
def tp700DecodeErrRow (u : Nat) : List Cell :=
  [.time, .nat u] ++ List.replicate 24 Cell.null ++ [.str "Decode error"]

/-- Success row of `tp_700`: `[now, unit_id] + temps + ["No error"]` where
`temps` has one entry per iteration of `range(0, reg_count, 2)`, channel
`i` built from registers `2*i` and `2*i+1`. -/
def tp700DataRow (u regCount : Nat) (regs : List Nat) : List Cell :=
  [.time, .nat u] ++
    (List.range ((regCount + 1) / 2)).map
      (fun i => Cell.word (tpChanWord (regs.getD (2 * i) 0) (regs.getD (2 * i + 1) 0))) ++
    [.str "No error"]

/-- Largest register index the decode loop of `tp_700` touches:
`range(0, reg_count, 2)` reads `regs[i]` and `regs[i+1]`, so
`reg_count - 1` when `reg_count` is even, `reg_count` when odd. -/
def tpMaxIdx (regCount : Nat) : Nat :=
  if regCount % 2 = 0 then regCount - 1 else regCount

/-- `tp_700` over its device range.  A read exception, an error-flagged
response and a short (`len(regs) < reg_count`) or empty block all raise
`ValueError` into the same handler: one all-null error row, close, then
`sys.exit(1)`.  A decode-time `IndexError` (possible only for odd
`reg_count`) writes a decode-error row, closes and exits.  A CSV write
never fails in this model (the sink is external). -/
def tp700Run (regCount : Nat) (reads : Nat → ReadResult) : List Nat → RunOut
  | [] => ⟨[], 0, .normal, []⟩
  | u :: rest =>
    match reads u with
    | .exc => ⟨[tp700ErrRow u], 1, .exited 1, [u]⟩
    | .errFlag => ⟨[tp700ErrRow u], 1, .exited 1, [u]⟩
    | .ok regs =>
      if regs.length < regCount ∨ regs = [] then
        ⟨[tp700ErrRow u], 1, .exited 1, [u]⟩
      else if regs.length ≤ tpMaxIdx regCount then
        ⟨[tp700DecodeErrRow u], 1, .exited 1, [u]⟩
      else
        let o := tp700Run regCount reads rest
        ⟨tp700DataRow u regCount regs :: o.rows, o.closes, o.term, u :: o.tried⟩

/-! ## custom_weather (weather station driver, device_specific_func.py 307-410) -/

/-- Error row of `custom_weather`:
`[now, device_id] + [None]*11 + ["Error"]` (GHI, DHI, DNI, GTI, WindDir,
WindSpeed, WindSpeed_2, WindSpeed_10, AirTemp, Humidity, AirPres). -/
def cwErrRow (u : Nat) : List Cell :=
  [.time, .nat u] ++ List.replicate 11 Cell.null ++ [.str "Error"]

/-- Success row of `custom_weather`: fixed named offsets
0,1,2,3 (unscaled irradiances), 7 (wind direction, unscaled),
8,9,10 (wind speeds ÷10), 30 (air temperature ÷10), 37 (humidity ÷10),
43 (air pressure ÷10), then `"No error"`. -/
def cwDataRow (u : Nat) (regs : List Nat) : List Cell :=
  [.time, .nat u,
   .rat (regs.getD 0 0), .rat (regs.getD 1 0),
   .rat (regs.getD 2 0), .rat (regs.getD 3 0),
   .rat (regs.getD 7 0),
   .rat ((regs.getD 8 0 : ℚ) / 10), .rat ((regs.getD 9 0 : ℚ) / 10),
   .rat ((regs.getD 10 0 : ℚ) / 10),
   .rat ((regs.getD 30 0 : ℚ) / 10), .rat ((regs.getD 37 0 : ℚ) / 10),
   .rat ((regs.getD 43 0 : ℚ) / 10),
   .str "No error"]

/-- `custom_weather` over its device range.  A raised read exception
writes one all-null error row, closes the client and calls `sys.exit(1)`.
The decode indexes up to `regs[43]` without a length check, so a block
shorter than 44 registers (including the empty list of an error-flagged
response) raises an uncaught `IndexError`. -/
def cwRun (reads : Nat → ReadResult) : List Nat → RunOut
  | [] => ⟨[], 0, .normal, []⟩
  | u :: rest =>
    match reads u with
    | .exc => ⟨[cwErrRow u], 1, .exited 1, [u]⟩
    | .errFlag => ⟨[], 0, .raised, [u]⟩
    | .ok regs =>
      if 44 ≤ regs.length then
        let o := cwRun reads rest
        ⟨cwDataRow u regs :: o.rows, o.closes, o.term, u :: o.tried⟩
      else ⟨[], 0, .raised, [u]⟩

example : (tp700Run 48 (fun _ => .exc) [1]).rows = [tp700ErrRow 1] := by decide
example : (tp700DataRow 1 48 (List.replicate 48 0)).length = 27 := by decide
example : (cwErrRow 3).length = 14 ∧ (cwDataRow 3 (List.replicate 44 0)).length = 14 := by decide

/-! ## temp_logger.py per-cycle device loop (Temp_logger/temp_logger.py 74-112) -/

/-- Communication-error row of `temp_logger.py`:
`[now, device_id] + ["Error"]*24 + ["Comm Error"]`. -/
def tempCommErrRow (u : Nat) : List Cell :=
  [.time, .nat u] ++ List.replicate 24 (Cell.str "Error") ++ [.str "Comm Error"]

/-- Success row of `temp_logger.py`: 24 channels, channel `i` from
registers `2*i` and `2*i+1` (REG_COUNT = 48), then `"No error"`. -/
def tempDataRow (u : Nat) (regs : List Nat) : List Cell :=
  [.time, .nat u] ++
    (List.range 24).map
      (fun i => Cell.word (tpChanWord (regs.getD (2 * i) 0) (regs.getD (2 * i + 1) 0))) ++
    [.str "No error"]

/-- Rows `temp_logger.py` appends for one device: a read exception gives
one Comm-Error row and `continue`; an error-flagged or incomplete
response (`not regs or len(regs) < REG_COUNT`, REG_COUNT = 48) gives NO
row and `continue`; a complete response gives one data row. -/
def tempPerUnit (reads : Nat → ReadResult) (u : Nat) : List (List Cell) :=
  match reads u with
  | .exc => [tempCommErrRow u]
  | .errFlag => []
  | .ok regs => if regs.length < 48 ∨ regs = [] then [] else [tempDataRow u regs]

/-- One poll cycle of `temp_logger.py`: the device loop visits the unit
ids in order and appends the per-unit rows. -/
def tempCycle (reads : Nat → ReadResult) (units : List Nat) : List (List Cell) :=
  units.flatMap (tempPerUnit reads)

/-- Whether `temp_logger.py` emits a row for a given read outcome. -/
def tempEmits : ReadResult → Bool
  | .exc => true
  | .errFlag => false
  | .ok regs => decide (48 ≤ regs.length)

/-- The unit id a row is attributed to: the `device_id` cell at index 1. -/
def rowUnit (row : List Cell) : Cell := row.getD 1 Cell.null

/-! ## hoymiles_dtu_p retry loop (device_specific_func.py 50-77) -/

/-- The retry loop around one unit's read, with explicit attempt index
and remaining budget: `attempt = 0; while attempt < max_retries: ...`.
Returns (number of read invocations, total seconds slept between
attempts, final outcome).  A valid response returns immediately; a
failed attempt sleeps 2 seconds and retries. -/
def retryGo (read : Nat → ReadResult) (attempt : Nat) : Nat → Nat × Nat × Option (List Nat)
  | 0 => (0, 0, none)
  | n + 1 =>
    match read attempt with
    | .ok regs => (1, 0, some regs)
    | _ =>
      let r := retryGo read (attempt + 1) n
      (r.1 + 1, r.2.1 + 2, r.2.2)

/-- The full retry wrapper of `hoymiles_dtu_p`: `max_retries = 10`
attempts starting at attempt 0. -/
def retryRead (read : Nat → ReadResult) : Nat × Nat × Option (List Nat) :=
  retryGo read 0 10

/-! ## hoymiles_dtu_p (multi-inverter station driver, device_specific_func.py 42-143) -/

/-- Result of the collection loop of `hoymiles_dtu_p`. -/
structure HoyOut where
  regs : List (List Nat)
  closes : Nat
  term : Term
  tried : List Nat
  deriving DecidableEq, Repr

/-- Collection loop of `hoymiles_dtu_p`: for each unit in order, retry
the read up to 10 times; on success append
`response.registers + [timestamp]` (the timestamp is abstracted to a
sentinel `0` entry) and move on; on exhaustion close the client once and
`sys.exit(1)` without reading the remaining units. -/
def hoymilesCollect (read : Nat → Nat → ReadResult) : List Nat → HoyOut
  | [] => ⟨[], 0, .normal, []⟩
  | u :: rest =>
    match (retryRead (read u)).2.2 with
    | some regs =>
      let o := hoymilesCollect read rest
      ⟨(regs ++ [0]) :: o.regs, o.closes, o.term, u :: o.tried⟩
    | none => ⟨[], 1, .exited 1, [u]⟩

/-- Parse row of `hoymiles_dtu_p` (19 cells): timestamp (`data[-1]`),
packed serial from `data[0:3]`, total and today production as
`(hi << 16) + lo` from `data[3:5]` and `data[5:7]`, temperature
`data[20]/10`, four PV triplets at base `21 + 3*n`
(voltage ÷10, current ÷100, power ÷10), operating status `data[39]`,
and `"No error"`. -/
def hoyRow (data : List Nat) : List Cell :=
  [.time,
   .word (data.getD 0 0 * 4294967296 + data.getD 1 0 * 65536 + data.getD 2 0),
   .rat (data.getD 3 0 * 65536 + data.getD 4 0),
   .rat (data.getD 5 0 * 65536 + data.getD 6 0),
   .rat ((data.getD 20 0 : ℚ) / 10),
   .rat ((data.getD 21 0 : ℚ) / 10), .rat ((data.getD 24 0 : ℚ) / 10),
   .rat ((data.getD 27 0 : ℚ) / 10), .rat ((data.getD 30 0 : ℚ) / 10),
   .rat ((data.getD 22 0 : ℚ) / 100), .rat ((data.getD 25 0 : ℚ) / 100),
   .rat ((data.getD 28 0 : ℚ) / 100), .rat ((data.getD 31 0 : ℚ) / 100),
   .rat ((data.getD 23 0 : ℚ) / 10), .rat ((data.getD 26 0 : ℚ) / 10),
   .rat ((data.getD 29 0 : ℚ) / 10), .rat ((data.getD 32 0 : ℚ) / 10),
   .nat (data.getD 39 0),
   .str "No error"]

/-- Parse loop of `hoymiles_dtu_p`: for each unit id `i` in the range,
fetch `regs[i-1]`; an out-of-range index raises `IndexError`, which is
caught and the row silently dropped; data shorter than 41 entries is
logged and skipped; otherwise one row is written. -/
def hoymilesParse (regs : List (List Nat)) (units : List Nat) : List (List Cell) :=
  units.flatMap fun i =>
    match regs[i - 1]? with
    | none => []
    | some data => if data.length < 41 then [] else [hoyRow data]

/-- `hoymiles_dtu_p` end to end: collect, then (only when collection did
not exit the process) parse. -/
def hoymilesRun (read : Nat → Nat → ReadResult) (units : List Nat) :
    HoyOut × List (List Cell) :=
  let o := hoymilesCollect read units
  match o.term with
  | .exited _ => (o, [])
  | _ => (o, hoymilesParse o.regs units)

/-- The `modbus_logger.py` process around one `hoymiles_dtu_p`
invocation (lines 113-145): a `SystemExit` raised by the driver's
`sys.exit(1)` is not an `Exception`, so it passes the main loop's
`except Exception` and reaches `finally: client.close()`, which invokes
close once more before the process exits with the driver's code; a
plain uncaught exception is swallowed by `except Exception` and the
loop continues; a normal return also continues.  Returns (total close
invocations on this trace, exit status — `none` meaning the loop keeps
running). -/
def processRun (o : HoyOut × List (List Cell)) : Nat × Option Nat :=
  match o.1.term with
  | .exited c => (o.1.closes + 1, some c)
  | .raised => (o.1.closes, none)
  | .normal => (o.1.closes, none)

example : retryRead (fun _ => .errFlag) = (10, 20, none) := by decide
example : hoymilesRun (fun _ _ => .errFlag) [1, 2, 3] =
    (⟨[], 1, .exited 1, [1]⟩, []) := by decide

/-! ## list_regis (diagnostic register dump, device_specific_func.py 13-37) -/

/-- `list_regis` only logs registers; it never appends a CSV row, never
closes the client and never exits: all failures `continue`. -/
def listRegisRun (_reads : Nat → ReadResult) (units : List Nat) : RunOut :=
  ⟨[], 0, .normal, units⟩

/-! ## IEEE-754 binary32 layout (tp_700 channel decode) -/

/-- Pack a binary32 representation (sign bit, 8-bit biased exponent,
23-bit fraction) into its 32-bit big-endian word. -/
def f32ToWord (s : Bool) (e f : Nat) : Nat :=
  (cond s 1 0) * 2147483648 + e * 8388608 + f

/-- Sign bit of a 32-bit word. -/
def wordSign (w : Nat) : Nat := w / 2147483648

/-- Biased exponent field of a 32-bit word. -/
def wordExp (w : Nat) : Nat := w / 8388608 % 256

/-- Fraction field of a 32-bit word. -/
def wordFrac (w : Nat) : Nat := w % 8388608

/-- Magnitude of a finite binary32 value as an exact rational:
subnormal `f / 2^149` when the biased exponent is 0, otherwise normal
`(2^23 + f) * 2^e / 2^150` (that is, `(1 + f/2^23) * 2^(e-127)`). -/
def f32Mag (e f : Nat) : ℚ :=
  if e = 0 then (f : ℚ) / 2 ^ 149 else ((2 ^ 23 + f) * 2 ^ e : ℚ) / 2 ^ 150

/-- Value of a finite binary32 representation as an exact rational. -/
def f32Val (s : Bool) (e f : Nat) : ℚ :=
  (cond s (-1) 1) * f32Mag e f

/-- Decode a 32-bit word as a binary32 value; `none` for the
infinity/NaN exponent 255. -/
def decodeWord (w : Nat) : Option ℚ :=
  if wordExp w = 255 then none
  else some ((cond (wordSign w == 1) (-1) 1) * f32Mag (wordExp w) (wordFrac w))

/-- The channel decode of `tp_700` / `temp_logger.py` on one register
pair: `struct.pack('>HH', hi, lo)` yields the 4 bytes of the big-endian
word `(hi << 16) | lo`, and `struct.unpack('>f', ...)` reads that word
as a binary32. -/
def tp700Chan (hi lo : Nat) : Option ℚ := decodeWord (tpChanWord hi lo)

/-! ## Driver dispatch (modbus_logger.py 87-93) -/

theorem dcm3366DataRow_length (u : Nat) (regs : List Nat) :
    (dcm3366DataRow u regs).length = 7 := rfl

theorem tp700DataRow48_length (u : Nat) (regs : List Nat) :
    (tp700DataRow u 48 regs).length = 27 := by
  simp [tp700DataRow]

theorem cwDataRow_length (u : Nat) (regs : List Nat) :
    (cwDataRow u regs).length = 14 := rfl

theorem hoyRow_length (data : List Nat) : (hoyRow data).length = 19 := rfl

theorem tempDataRow_length (u : Nat) (regs : List Nat) :
    (tempDataRow u regs).length = 27 := by
  simp [tempDataRow]

theorem dcm3366Run_row_length (reads : Nat → ReadResult) :
    ∀ (units : List Nat), ∀ row ∈ (dcm3366Run reads units).rows, row.length = 7 := by
  intro units
  induction units with
  | nil => simp [dcm3366Run]
  | cons u rest ih =>
    intro row hrow
    rcases hr : reads u with regs | _ | _ <;>
      simp only [dcm3366Run, hr] at hrow
    · rcases le_or_lt 26 regs.length with hl | hl
      · simp only [if_pos hl, List.mem_cons] at hrow
        rcases hrow with h | h
        · simp [h, dcm3366DataRow_length]
        · exact ih row h
      · simp [if_neg (not_le.mpr hl)] at hrow
    · simp at hrow
    · simp at hrow
      simp [hrow, dcm3366ErrRow]

theorem tp700Run_row_length (reads : Nat → ReadResult) :
    ∀ (units : List Nat), ∀ row ∈ (tp700Run 48 reads units).rows, row.length = 27 := by
  intro units
  induction units with
  | nil => simp [tp700Run]
  | cons u rest ih =>
    intro row hrow
    rcases hr : reads u with regs | _ | _ <;>
      simp only [tp700Run, hr] at hrow
    · split at hrow
      · simp at hrow
        simp [hrow, tp700ErrRow]
      · split at hrow
        · simp at hrow
          simp [hrow, tp700DecodeErrRow]
        · simp only [List.mem_cons] at hrow
          rcases hrow with h | h
          · simp [h, tp700DataRow48_length]
          · exact ih row h
    · simp at hrow
      simp [hrow, tp700ErrRow]
    · simp at hrow
      simp [hrow, tp700ErrRow]

theorem cwRun_row_length (reads : Nat → ReadResult) :
    ∀ (units : List Nat), ∀ row ∈ (cwRun reads units).rows, row.length = 14 := by
  intro units
  induction units with
  | nil => simp [cwRun]
  | cons u rest ih =>
    intro row hrow
    rcases hr : reads u with regs | _ | _ <;>
      simp only [cwRun, hr] at hrow
    · rcases le_or_lt 44 regs.length with hl | hl
      · simp only [if_pos hl, List.mem_cons] at hrow
        rcases hrow with h | h
        · simp [h, cwDataRow_length]
        · exact ih row h
      · simp [if_neg (not_le.mpr hl)] at hrow
    · simp at hrow
    · simp at hrow
      simp [hrow, cwErrRow]

theorem hoymilesParse_row_length (regs : List (List Nat)) (units : List Nat) :
    ∀ row ∈ hoymilesParse regs units, row.length = 19 := by
  intro row hrow
  simp only [hoymilesParse, List.mem_flatMap] at hrow
  obtain ⟨i, _, hmem⟩ := hrow
  rcases hg : regs[i - 1]? with _ | data <;> simp only [hg] at hmem
  · simp at hmem
  · split at hmem
    · simp at hmem
    · simp at hmem
      simp [hmem, hoyRow_length]

theorem tempCycle_row_length (reads : Nat → ReadResult) (units : List Nat) :
    ∀ row ∈ tempCycle reads units, row.length = 27 := by
  intro row hrow
  simp only [tempCycle, List.mem_flatMap] at hrow
  obtain ⟨u, _, hmem⟩ := hrow
  rcases hr : reads u with regs | _ | _ <;> simp only [tempPerUnit, hr] at hmem
  · split at hmem
    · simp at hmem
    · simp at hmem
      simp [hmem, tempDataRow_length]
  · simp at hmem
  · simp at hmem
    simp [hmem, tempCommErrRow]

/-! ## Claim C1 -/

/-- C1, counterexample.  The claim says a failed read makes the
single-block driver emit one null record and continue to the next unit
without terminating the process.  With a read that raises for unit 1 and
would succeed for unit 2, `dcm_3366` emits the one null record but then
exits the process with status 1, having tried only unit 1: unit 2 of the
same cycle is never read. -/
theorem C1_counterexample :
    (dcm3366Run (fun u => if u = 1 then ReadResult.exc
        else ReadResult.ok (List.replicate 26 0)) [1, 2]).term = Term.exited 1 ∧
    (dcm3366Run (fun u => if u = 1 then ReadResult.exc
        else ReadResult.ok (List.replicate 26 0)) [1, 2]).tried = [1] ∧
    (dcm3366Run (fun u => if u = 1 then ReadResult.exc
        else ReadResult.ok (List.replicate 26 0)) [1, 2]).rows.length = 1 := by
  decide

/-- C1, amended.  For `dcm_3366`, `tp_700` and `custom_weather`, a read
that raises for the current unit makes the driver emit exactly one
record for that unit with every data field null and an error status, and
then close the client once and terminate the process with exit status 1:
the remaining units of the cycle are not read. -/
theorem C1_amended (rD rT rW : Nat → ReadResult) (u : Nat) (rest : List Nat)
    (hD : rD u = ReadResult.exc) (hT : rT u = ReadResult.exc)
    (hW : rW u = ReadResult.exc) :
    dcm3366Run rD (u :: rest) = ⟨[dcm3366ErrRow u], 1, .exited 1, [u]⟩ ∧
    tp700Run 48 rT (u :: rest) = ⟨[tp700ErrRow u], 1, .exited 1, [u]⟩ ∧
    cwRun rW (u :: rest) = ⟨[cwErrRow u], 1, .exited 1, [u]⟩ := by
  refine ⟨?_, ?_, ?_⟩ <;> simp [dcm3366Run, tp700Run, cwRun, hD, hT, hW]

/-- C1, witness for the amended theorem at a concrete always-raising
read over the range `[1, 2]`. -/
theorem C1_amended_witness :
    dcm3366Run (fun _ => ReadResult.exc) [1, 2] =
      ⟨[dcm3366ErrRow 1], 1, .exited 1, [1]⟩ ∧
    tp700Run 48 (fun _ => ReadResult.exc) [1, 2] =
      ⟨[tp700ErrRow 1], 1, .exited 1, [1]⟩ ∧
    cwRun (fun _ => ReadResult.exc) [1, 2] =
      ⟨[cwErrRow 1], 1, .exited 1, [1]⟩ :=
  C1_amended (fun _ => ReadResult.exc) (fun _ => ReadResult.exc)
    (fun _ => ReadResult.exc) 1 [2] rfl rfl rfl

/-! ## Claim C2 -/

/-- C2.  Every CSV row a driver writes has that driver's fixed column
count, for every read outcome and unit range, success and error rows
alike: 7 columns for `dcm_3366`, 27 for `tp_700` (at its deployed
48-register block), 14 for `custom_weather`, 19 for `hoymiles_dtu_p`'s
parse rows, and 27 for the standalone `temp_logger.py` rows. -/
theorem C2_theorem (reads : Nat → ReadResult) (units : List Nat) :
    (∀ row ∈ (dcm3366Run reads units).rows, row.length = 7) ∧
    (∀ row ∈ (tp700Run 48 reads units).rows, row.length = 27) ∧
    (∀ row ∈ (cwRun reads units).rows, row.length = 14) ∧
    (∀ regsL units2, ∀ row ∈ hoymilesParse regsL units2, row.length = 19) ∧
    (∀ row ∈ tempCycle reads units, row.length = 27) :=
  ⟨dcm3366Run_row_length reads units, tp700Run_row_length reads units,
   cwRun_row_length reads units,
   fun regsL units2 => hoymilesParse_row_length regsL units2,
   tempCycle_row_length reads units⟩

/-- C2, witness: concrete error rows produced by an always-raising read
over the range `[1]` (and one concrete hoymiles parse row) have the
declared column counts. -/
theorem C2_witness :
    (dcm3366ErrRow 1).length = 7 ∧ (tp700ErrRow 1).length = 27 ∧
    (cwErrRow 1).length = 14 ∧ (hoyRow (List.replicate 42 5)).length = 19 ∧
    (tempCommErrRow 1).length = 27 :=
  ⟨(C2_theorem (fun _ => ReadResult.exc) [1]).1 (dcm3366ErrRow 1) (by decide),
   (C2_theorem (fun _ => ReadResult.exc) [1]).2.1 (tp700ErrRow 1) (by decide),
   (C2_theorem (fun _ => ReadResult.exc) [1]).2.2.1 (cwErrRow 1) (by decide),
   (C2_theorem (fun _ => ReadResult.exc) [1]).2.2.2.1 [List.replicate 42 5] [1]
     (hoyRow (List.replicate 42 5)) (by simp [hoymilesParse]),
   (C2_theorem (fun _ => ReadResult.exc) [1]).2.2.2.2 (tempCommErrRow 1) (by decide)⟩

/-! ## Claim C3 -/

/-- `(regs.length < 48 ∨ regs = [])`, the skip condition of
`temp_logger.py`, is exactly the negation of the emit condition. -/
theorem temp_skip_iff (regs : List Nat) :
    (regs.length < 48 ∨ regs = []) ↔ ¬(48 ≤ regs.length) := by
  constructor
  · rintro (h | rfl)
    · omega
    · simp
  · intro h
    exact Or.inl (not_le.mp h)

/-- The rows `temp_logger.py` writes for one unit, projected to their
unit-id cell: one row exactly when the outcome emits. -/
theorem tempPerUnit_map_rowUnit (reads : Nat → ReadResult) (u : Nat) :
    (tempPerUnit reads u).map rowUnit =
      if tempEmits (reads u) then [Cell.nat u] else [] := by
  rcases hr : reads u with regs | _ | _ <;>
    simp only [tempPerUnit, tempEmits, hr]
  · by_cases hl : 48 ≤ regs.length
    · rw [if_neg (fun h => (temp_skip_iff regs).mp h hl)]
      simp [hl, rowUnit, tempDataRow]
    · rw [if_pos ((temp_skip_iff regs).mpr hl)]
      simp [hl]
  · simp
  · simp [rowUnit, tempCommErrRow]

/-- C3, counterexample.  The claim says one poll cycle appends exactly
one record per unit id even when a read fails.  In `temp_logger.py`, a
unit answering with an incomplete block (here 10 of the required 48
registers) is skipped with no record at all: the cycle over the
one-unit range `[1]` appends zero rows. -/
theorem C3_counterexample :
    (tempCycle (fun _ => ReadResult.ok (List.replicate 10 0)) [1]).length ≠
      ([1] : List Nat).length := by
  decide

/-- C3, amended.  One `temp_logger.py` poll cycle visits the unit ids in
the declared range order and appends at most one record per unit id, in
order: exactly one for a unit whose read raises (a Comm-Error row) or
returns a complete block (a data row), and none for a unit whose
response is error-flagged or shorter than the 48 required registers. -/
theorem C3_amended (reads : Nat → ReadResult) (units : List Nat) :
    (tempCycle reads units).map rowUnit =
      (units.filter (fun u => tempEmits (reads u))).map Cell.nat := by
  induction units with
  | nil => simp [tempCycle]
  | cons u rest ih =>
    simp only [tempCycle, List.flatMap_cons, List.map_append, List.filter_cons]
    simp only [tempCycle] at ih
    by_cases he : tempEmits (reads u)
    · simp [tempPerUnit_map_rowUnit, he, ih]
    · simp [tempPerUnit_map_rowUnit, he, ih]

/-! ## Claim C4 -/

/-- The spec scenario's register block read literally: `[100, 0]` at
indices 0:2, zeros up to index 19, then the pairs at 20:22, 22:24,
24:26 encoding 500000, 12345 and 50000. -/
def c4ClaimRegs : List Nat :=
  [100, 0, 0, 0, 0, 0, 0, 0, 0, 0, 0, 0, 0, 0, 0, 0, 0, 0, 0, 0,
   7, 41248, 0, 12345, 0, 50000]

/-- The scenario block with the forward-energy pair actually encoding
the 32-bit value 100: `regs[0] = 0`, `regs[1] = 100`. -/
def c4FixedRegs : List Nat :=
  [0, 100, 0, 0, 0, 0, 0, 0, 0, 0, 0, 0, 0, 0, 0, 0, 0, 0, 0, 0,
   7, 41248, 0, 12345, 0, 50000]

/-- C4, counterexample.  On the scenario input read literally
(`regs[0] = 100`, `regs[1] = 0`), the decode gives
`((100 << 16) + 0) / 100 = 65536`, not the claimed 1.0 — while the other
three quantities do come out as claimed. -/
theorem C4_counterexample :
    dcm3366Decode c4ClaimRegs = (65536, 500, 1.2345, 5) ∧ (65536 : ℚ) ≠ 1 := by
  constructor
  · simp only [dcm3366Decode, c4ClaimRegs]
    norm_num
  · norm_num

/-- C4, amended.  The decode forms each quantity as
`(regs[hi] << 16) + regs[lo]` of the stated register pair with the
stated divisor (shown with explicit positions: indices 0, 1 and, after
18 intermediate registers, indices 20-25); on the scenario input with
the pair `(0, 100)` at indices 0:2 — so that the 32-bit forward-energy
raw value is 100 — the outputs are forwardEnergyKWh = 1.0,
activePowerKW = 500.0, currentA = 1.2345 and voltageV = 5.0. -/
theorem C4_theorem :
    (∀ (r0 r1 r20 r21 r22 r23 r24 r25 : Nat) (mid tail : List Nat),
      mid.length = 18 →
      dcm3366Decode (r0 :: r1 :: (mid ++ (r20 :: r21 :: r22 :: r23 :: r24 :: r25 :: tail))) =
        ((r0 * 65536 + r1 : ℚ) / 100, (r20 * 65536 + r21 : ℚ) / 1000,
         (r22 * 65536 + r23 : ℚ) / 10000, (r24 * 65536 + r25 : ℚ) / 10000)) ∧
    dcm3366Decode c4FixedRegs = (1, 500, 1.2345, 5) := by
  constructor
  · intro r0 r1 r20 r21 r22 r23 r24 r25 mid tail hmid
    simp only [dcm3366Decode, List.getD_cons_succ, List.getD_cons_zero]
    rw [List.getD_append_right mid _ _ _ (by omega),
      List.getD_append_right mid _ _ _ (by omega),
      List.getD_append_right mid _ _ _ (by omega),
      List.getD_append_right mid _ _ _ (by omega),
      List.getD_append_right mid _ _ _ (by omega),
      List.getD_append_right mid _ _ _ (by omega), hmid]
    norm_num
  · simp only [dcm3366Decode, c4FixedRegs]
    norm_num

/-- C4, witness for the amended formula at the scenario registers. -/
theorem C4_witness :
    dcm3366Decode (0 :: 100 ::
        (List.replicate 18 0 ++ (7 :: 41248 :: 0 :: 12345 :: 0 :: 50000 :: []))) =
      ((0 * 65536 + 100 : ℚ) / 100, (7 * 65536 + 41248 : ℚ) / 1000,
       (0 * 65536 + 12345 : ℚ) / 10000, (0 * 65536 + 50000 : ℚ) / 10000) :=
  C4_theorem.1 0 100 7 41248 0 12345 0 50000 (List.replicate 18 0) [] (by simp)

/-! ## Claim C5 -/

/-- With a read that fails on every attempt, the retry loop runs its
whole remaining budget: one read invocation and one 2-second sleep per
budgeted attempt, ending with no data. -/
theorem retryGo_allFail (read : Nat → ReadResult)
    (h : ∀ i, (read i).isFailure = true) :
    ∀ (n a : Nat), retryGo read a n = (n, 2 * n, none) := by
  intro n
  induction n with
  | zero => intro a; rfl
  | succ n ih =>
    intro a
    rcases hr : read a with regs | _ | _
    · have := h a
      rw [hr] at this
      simp [ReadResult.isFailure] at this
    · simp [retryGo, hr, ih (a + 1), Nat.mul_succ]
    · simp [retryGo, hr, ih (a + 1), Nat.mul_succ]

/-- A first-attempt success returns immediately with one invocation. -/
theorem retryGo_firstOk (read : Nat → ReadResult) (a n : Nat) (regs : List Nat)
    (h : read a = ReadResult.ok regs) :
    retryGo read a (n + 1) = (1, 0, some regs) := by
  simp [retryGo, h]

/-- C5.  Given a read that fails on every call, the retry wrapper of
`hoymiles_dtu_p` invokes the read exactly `max_retries = 10` times — no
more, no fewer — sleeping the constant 2 seconds between attempts
(20 seconds in total), before reaching the escalation decision with no
data. -/
theorem C5_theorem (read : Nat → ReadResult)
    (h : ∀ i, (read i).isFailure = true) :
    retryRead read = (10, 20, none) := by
  have h10 := retryGo_allFail read h 10 0
  simpa [retryRead] using h10

/-- C5, witness at the read that always returns an error-flagged
response. -/
theorem C5_witness : retryRead (fun _ => ReadResult.errFlag) = (10, 20, none) :=
  C5_theorem (fun _ => ReadResult.errFlag) (fun _ => rfl)

/-! ## Claim C6 -/

/-- Collection in `hoymiles_dtu_p`: when every unit before `u` succeeds
on its first attempt and `u` fails on every attempt, the loop closes the
client once, exits with status 1, and has tried exactly the units up to
and including `u`. -/
theorem hoymilesCollect_fail_after (read : Nat → Nat → ReadResult)
    (u : Nat) (post : List Nat) (hu : ∀ a, (read u a).isFailure = true) :
    ∀ (pre : List Nat), (∀ v ∈ pre, (read v 0).isFailure = false) →
    ∃ rs, hoymilesCollect read (pre ++ u :: post) = ⟨rs, 1, .exited 1, pre ++ [u]⟩ := by
  intro pre
  induction pre with
  | nil =>
    intro _
    have hnone : (retryRead (read u)).2.2 = none := by
      have h10 := retryGo_allFail (read u) hu 10 0
      simp [retryRead, h10]
    exact ⟨[], by simp [hoymilesCollect, hnone]⟩
  | cons v pre' ih =>
    intro hpre
    have hv : (read v 0).isFailure = false := hpre v (by simp)
    obtain ⟨regs, hregs⟩ : ∃ regs, read v 0 = ReadResult.ok regs := by
      rcases hr : read v 0 with regs | _ | _
      · exact ⟨regs, rfl⟩
      · rw [hr] at hv
        simp [ReadResult.isFailure] at hv
      · rw [hr] at hv
        simp [ReadResult.isFailure] at hv
    have hsome : (retryRead (read v)).2.2 = some regs := by
      have := retryGo_firstOk (read v) 0 9 regs hregs
      simp [retryRead, this]
    obtain ⟨rs, hrs⟩ := ih (fun w hw => hpre w (by simp [hw]))
    refine ⟨(regs ++ [0]) :: rs, ?_⟩
    simp [hoymilesCollect, hsome, hrs]

/-- C6, counterexample.  The claim says the hard-fail trace invokes the
transport's close method exactly once.  On the very trace that delivers
the non-zero exit (a read that always reports error), the driver closes
once and raises `SystemExit(1)`, which passes `except Exception` in
`modbus_logger.py` and triggers `finally: client.close()`: process-wide,
close is invoked twice, not once. -/
theorem C6_counterexample :
    (processRun (hoymilesRun (fun _ _ => ReadResult.errFlag) [1])).2 = some 1 ∧
    (processRun (hoymilesRun (fun _ _ => ReadResult.errFlag) [1])).1 = 2 ∧
    (2 : Nat) ≠ 1 := by
  decide

/-- C6, amended.  If the retries for any single unit of the
`hoymiles_dtu_p` range are exhausted (units before it succeeding), the
whole process hard-fails: the driver invokes the client's close method
exactly once and raises `SystemExit(1)`, the remaining units are never
read and no rows are parsed or written; the process then terminates
with exit status 1, the `finally` block of `modbus_logger.py` invoking
close on the already-closed client a second time on the way out — two
close invocations in total on the trace. -/
theorem C6_amended (read : Nat → Nat → ReadResult) (pre : List Nat) (u : Nat)
    (post : List Nat) (hpre : ∀ v ∈ pre, (read v 0).isFailure = false)
    (hu : ∀ a, (read u a).isFailure = true) :
    (hoymilesRun read (pre ++ u :: post)).1.closes = 1 ∧
    (hoymilesRun read (pre ++ u :: post)).1.term = Term.exited 1 ∧
    (hoymilesRun read (pre ++ u :: post)).1.tried = pre ++ [u] ∧
    (hoymilesRun read (pre ++ u :: post)).2 = [] ∧
    processRun (hoymilesRun read (pre ++ u :: post)) = (2, some 1) := by
  obtain ⟨rs, hrs⟩ := hoymilesCollect_fail_after read u post hu pre hpre
  simp [hoymilesRun, processRun, hrs]

/-- C6, witness for the amended theorem: unit 1 answers at once, unit 2
always error-flagged, unit 3 behind it; driver-internal close once,
exit status 1, units tried `[1, 2]`, no rows, process-wide two closes. -/
theorem C6_amended_witness :
    (hoymilesRun (fun v _ => if v = 2 then ReadResult.errFlag else ReadResult.ok [5])
        ([1] ++ 2 :: [3])).1.closes = 1 ∧
    (hoymilesRun (fun v _ => if v = 2 then ReadResult.errFlag else ReadResult.ok [5])
        ([1] ++ 2 :: [3])).1.term = Term.exited 1 ∧
    (hoymilesRun (fun v _ => if v = 2 then ReadResult.errFlag else ReadResult.ok [5])
        ([1] ++ 2 :: [3])).1.tried = [1] ++ [2] ∧
    (hoymilesRun (fun v _ => if v = 2 then ReadResult.errFlag else ReadResult.ok [5])
        ([1] ++ 2 :: [3])).2 = [] ∧
    processRun (hoymilesRun
        (fun v _ => if v = 2 then ReadResult.errFlag else ReadResult.ok [5])
        ([1] ++ 2 :: [3])) = (2, some 1) :=
  C6_amended (fun v _ => if v = 2 then ReadResult.errFlag else ReadResult.ok [5])
    [1] 2 [3] (by decide) (fun _ => rfl)

/-! ## Claim C7 -/

theorem wordSign_toWord (s : Bool) (e f : Nat) (he : e < 256) (hf : f < 8388608) :
    wordSign (f32ToWord s e f) = cond s 1 0 := by
  cases s <;> simp only [f32ToWord, wordSign, cond] <;> omega

theorem wordExp_toWord (s : Bool) (e f : Nat) (he : e < 256) (hf : f < 8388608) :
    wordExp (f32ToWord s e f) = e := by
  cases s <;> simp only [f32ToWord, wordExp, cond] <;> omega

theorem wordFrac_toWord (s : Bool) (e f : Nat) (hf : f < 8388608) :
    wordFrac (f32ToWord s e f) = f := by
  cases s <;> simp only [f32ToWord, wordFrac, cond] <;> omega

/-- C7.  Splitting the big-endian word of any finite binary32
representation into its high and low 16-bit registers and decoding the
pair with the `tp_700` channel decode recovers exactly the represented
value — the channel decode is the inverse of the big-endian binary32
reference encoding; in particular, registers `(16828, 0)` (the
big-endian half-words of 23.5f) decode to 23.5. -/
theorem C7_theorem :
    (∀ (s : Bool) (e f : Nat), e < 255 → f < 8388608 →
      tp700Chan (f32ToWord s e f / 65536) (f32ToWord s e f % 65536) =
        some (f32Val s e f)) ∧
    tp700Chan 16828 0 = some (47 / 2) := by
  constructor
  · intro s e f he hf
    have hw : tpChanWord (f32ToWord s e f / 65536) (f32ToWord s e f % 65536) =
        f32ToWord s e f := by
      simp only [tpChanWord]
      omega
    simp only [tp700Chan, hw, decodeWord,
      wordExp_toWord s e f (by omega) hf, wordFrac_toWord s e f hf,
      wordSign_toWord s e f (by omega) hf]
    rw [if_neg (by omega)]
    cases s <;> simp [f32Val]
  · simp only [tp700Chan, tpChanWord, decodeWord, wordSign, wordExp, wordFrac,
      f32Mag]
    norm_num
    rfl

/-- C7, witness at the binary32 representation of 23.5f
(sign 0, biased exponent 131, fraction 0x3C0000). -/
theorem C7_witness :
    tp700Chan (f32ToWord false 131 3932160 / 65536)
        (f32ToWord false 131 3932160 % 65536) =
      some (f32Val false 131 3932160) :=
  C7_theorem.1 false 131 3932160 (by norm_num) (by norm_num)

/-! ## Claim C8 -/

/-- C9, evaluation of the code at the failing input.  A register block
shorter than the 26 registers `dcm_3366` indexes (here the empty block
of an error-flagged response) is not classified as a decode error: the
unguarded indexing raises an `IndexError` that escapes the decoder with
no record written; `custom_weather` behaves the same at its index 43,
while `tp_700` does check the length first and records an error row. -/
theorem C9_theorem :
    dcm3366DecodeE [] = Except.error "IndexError" ∧
    dcm3366Run (fun _ => ReadResult.ok []) [1] = ⟨[], 0, Term.raised, [1]⟩ ∧
    cwRun (fun _ => ReadResult.ok []) [1] = ⟨[], 0, Term.raised, [1]⟩ ∧
    (tp700Run 48 (fun _ => ReadResult.ok (List.replicate 10 0)) [1]).rows =
      [tp700ErrRow 1] :=
  ⟨rfl, by decide, by decide, by decide⟩

/-! ## Claim C10 -/

/-- When every unit answers its first read attempt, the collection loop
of `hoymiles_dtu_p` appends one entry per unit in iteration order. -/
theorem hoymilesCollect_allOk (B : Nat → List Nat) (units : List Nat) :
    hoymilesCollect (fun u _ => ReadResult.ok (B u)) units =
      ⟨units.map (fun u => B u ++ [0]), 0, .normal, units⟩ := by
  induction units with
  | nil => rfl
  | cons u rest ih =>
    have hsome :
        (retryRead (fun _ => ReadResult.ok (B u))).2.2 = some (B u) := by
      have := retryGo_firstOk (fun _ => ReadResult.ok (B u)) 0 9 (B u) rfl
      simp [retryRead, this]
    simp [hoymilesCollect, hsome, ih]

/-- C10.  The parse loop of `hoymiles_dtu_p` fetches unit `i`'s data as
`regs[i-1]`, so rows are attributed to the right unit exactly for the
contiguous range starting at 1; for the range 2..4 every unit's parse
fetches the following unit's registers, and the last unit's index is out
of range — caught and its row silently dropped, as the concrete parse
output shows. -/
theorem C10_theorem :
    (∀ (B : Nat → List Nat) (n : Nat), ∀ i ∈ List.range' 1 n,
      (hoymilesCollect (fun u _ => ReadResult.ok (B u))
          (List.range' 1 n)).regs[i - 1]? = some (B i ++ [0])) ∧
    (∀ B : Nat → List Nat,
      (hoymilesCollect (fun u _ => ReadResult.ok (B u)) [2, 3, 4]).regs[2 - 1]? =
          some (B 3 ++ [0]) ∧
      (hoymilesCollect (fun u _ => ReadResult.ok (B u)) [2, 3, 4]).regs[3 - 1]? =
          some (B 4 ++ [0]) ∧
      (hoymilesCollect (fun u _ => ReadResult.ok (B u)) [2, 3, 4]).regs[4 - 1]? =
          none) ∧
    (hoymilesRun (fun u _ => ReadResult.ok (List.replicate 41 u)) [2, 3, 4]).2 =
      [hoyRow (List.replicate 41 3 ++ [0]), hoyRow (List.replicate 41 4 ++ [0])] := by
  refine ⟨?_, ?_, ?_⟩
  · intro B n i hi
    obtain ⟨hi1, hi2⟩ := List.mem_range'_1.mp hi
    rw [hoymilesCollect_allOk]
    simp only [List.getElem?_map, List.getElem?_range' 1 1 (show i - 1 < n by omega)]
    have : 1 + 1 * (i - 1) = i := by omega
    rw [this]
    rfl
  · intro B
    rw [hoymilesCollect_allOk]
    exact ⟨rfl, rfl, rfl⟩
  · rfl

/-- C10, witness for the attribution part at a concrete block function
and the range 1..3. -/
theorem C10_witness :
    (hoymilesCollect (fun u _ => ReadResult.ok ([u, u]))
        (List.range' 1 3)).regs[2 - 1]? = some ([2, 2] ++ [0]) :=
  C10_theorem.1 (fun u => [u, u]) 3 2 (by decide)

end ModbusLoggers
